import Mathlib

/-!
Verification of the wahl-chat backend's multi-provider response orchestration
and backend-selection engine, as a shallow embedding of the Python sources
(`src/llms.py`, `src/websocket_app.py`, `src/chatbot_async.py`,
`src/vector_store_helper.py`).

Conventions of the embedding:
* Python strings that get sliced are modelled as `List Char`.
* Network calls (LLM invocations, the re-ranker model) are modelled by
  outcome oracles passed in as function arguments: `some r` is a successful
  call returning `r`, `none` is a raised exception.
* The mutable `is_at_rate_limit` flags are modelled by the trace of flag
  writes that an execution performs, in order.
* `random.choice` is modelled by an arbitrary natural number `rand`
  reduced modulo the length of the list that is chosen from.
-/

namespace WahlChat

/-- Size class of a backend model (`src/models/general.py`, `LLMSize`). -/
inductive LLMSize where
  | small
  | large
  deriving DecidableEq, Repr

/-- A configured backend model (`src/models/general.py`, `class LLM`).
The langchain client object (`model` field) carries no state relevant to the
routing algorithm and is replaced by the invocation oracle, so it is omitted. -/
structure LLM where
  name : String
  sizes : List LLMSize
  priority : Int
  user_capacity_per_minute : Int
  is_at_rate_limit : Bool
  premium_only : Bool := false
  back_up_only : Bool := false
  deriving DecidableEq, Repr

/-- `sorted(llms, key=lambda x: x.priority, reverse=True)`: a stable sort,
descending by priority.  Any two stable sorts agree, so Python's Timsort is
modelled by a stable insertion sort. -/
def sortByPriorityDesc (llms : List LLM) : List LLM :=
  llms.insertionSort (fun a b => b.priority ≤ a.priority)

/-- How one of the router functions in `src/llms.py` ends. -/
inductive RouterOutcome (α : Type) where
  | success (name : String) (result : α)
  | raised (msg : String)
  | returnedNone
  deriving DecidableEq, Repr

/-- The observable behaviour of one router call: the `is_at_rate_limit` flag
writes it performs in order, how often `handle_rate_limit_hit_for_all_llms`
(the process-wide rate-limit signal) fires, and how the call ends. -/
structure RouterRun (α : Type) where
  flag_writes : List (String × Bool)
  signals : Nat
  outcome : RouterOutcome α
  deriving DecidableEq, Repr

/-- The shared `for llm in llms: try ... except ...` loop of `src/llms.py`:
try candidates in order; on success write flag `false` and stop; on an
exception write flag `true` and continue. -/
def try_llms_in_order (inv : LLM → Option α) : List LLM → List (String × Bool) × Option (String × α)
  | [] => ([], none)
  | llm :: rest =>
    match inv llm with
    | some r => ([(llm.name, false)], some (llm.name, r))
    | none =>
      let next := try_llms_in_order inv rest
      ((llm.name, true) :: next.1, next.2)

/-- The candidate tiers used by the single-shot routers
(`get_answer_from_llms` / `get_structured_output_from_llms`, src/llms.py:164-166
and 195-197): sort all pool members descending by priority, then split off the
`back_up_only` members as a second tier. -/
def single_shot_candidate_tiers (llms : List LLM) : List LLM × List LLM :=
  let sorted_llms := sortByPriorityDesc llms
  (sorted_llms.filter (fun llm => !llm.back_up_only),
   sorted_llms.filter (fun llm => llm.back_up_only))

/-- `get_answer_from_llms` (src/llms.py:161-189) over an invocation oracle. -/
def get_answer_from_llms (inv : LLM → Option α) (llms : List LLM) : RouterRun α :=
  let tiers := single_shot_candidate_tiers llms
  match try_llms_in_order inv tiers.1 with
  | (fw, some (n, r)) => ⟨fw, 0, .success n r⟩
  | (fw, none) =>
    match try_llms_in_order inv tiers.2 with
    | (fw₂, some (n, r)) => ⟨fw ++ fw₂, 1, .success n r⟩
    | (fw₂, none) => ⟨fw ++ fw₂, 1, .raised "All LLMs are at rate limit."⟩

/-- `get_structured_output_from_llms` (src/llms.py:192-223): identical control
flow to `get_answer_from_llms`; the `with_structured_output(schema)` wrapping
is part of the invocation oracle. -/
def get_structured_output_from_llms (inv : LLM → Option α) (llms : List LLM) : RouterRun α :=
  let tiers := single_shot_candidate_tiers llms
  match try_llms_in_order inv tiers.1 with
  | (fw, some (n, r)) => ⟨fw, 0, .success n r⟩
  | (fw, none) =>
    match try_llms_in_order inv tiers.2 with
    | (fw₂, some (n, r)) => ⟨fw ++ fw₂, 1, .success n r⟩
    | (fw₂, none) => ⟨fw ++ fw₂, 1, .raised "All LLMs are at rate limit."⟩

/-- The candidate order used by `stream_answer_from_llms`
(src/llms.py:233-256): drop `premium_only` members unless premium is allowed,
partition by the preferred size (a model counts for the non-preferred set only
if it does not also carry the preferred size), sort each set descending by
priority, preferred set first.  There is no `back_up_only` handling here. -/
def stream_candidate_order (llms : List LLM) (preferred_llm_size : LLMSize)
    (use_premium_llms : Bool) : List LLM :=
  let llms₁ := if use_premium_llms then llms else llms.filter (fun llm => !llm.premium_only)
  match preferred_llm_size with
  | .large =>
    let large_llms := llms₁.filter (fun llm => llm.sizes.contains .large)
    let small_llms := llms₁.filter
      (fun llm => llm.sizes.contains .small && !llm.sizes.contains .large)
    sortByPriorityDesc large_llms ++ sortByPriorityDesc small_llms
  | .small =>
    let small_llms := llms₁.filter (fun llm => llm.sizes.contains .small)
    let large_llms := llms₁.filter
      (fun llm => llm.sizes.contains .large && !llm.sizes.contains .small)
    sortByPriorityDesc small_llms ++ sortByPriorityDesc large_llms

/-- `stream_answer_from_llms` (src/llms.py:226-268).  When every candidate
fails the final statement is `return await handle_rate_limit_hit_for_all_llms()`:
the signal fires once and the Python function returns `None` — it does not
raise, and there is no backup tier. -/
def stream_answer_from_llms (inv : LLM → Option α) (llms : List LLM)
    (preferred_llm_size : LLMSize := .large) (use_premium_llms : Bool := false) :
    RouterRun α :=
  let ordered := stream_candidate_order llms preferred_llm_size use_premium_llms
  match try_llms_in_order inv ordered with
  | (fw, some (n, r)) => ⟨fw, 0, .success n r⟩
  | (fw, none) => ⟨fw, 1, .returnedNone⟩

/-- Modelled from the spec (section 4.1, `select(preferredSize, allowPremium)`),
for comparison with the code's two selection routines: partition by preferred
size, sort each set descending by priority, concatenate preferred first,
exclude `premiumOnly` unless the caller is premium-eligible, and split
`backupOnly` members into a second tier. -/
def select_spec (llms : List LLM) (preferred : LLMSize) (allowPremium : Bool) :
    List LLM × List LLM :=
  let eligible := if allowPremium then llms else llms.filter (fun llm => !llm.premium_only)
  let matching := eligible.filter (fun llm => llm.sizes.contains preferred)
  let spillover := eligible.filter (fun llm => !llm.sizes.contains preferred)
  let ordered := sortByPriorityDesc matching ++ sortByPriorityDesc spillover
  (ordered.filter (fun llm => !llm.back_up_only),
   ordered.filter (fun llm => llm.back_up_only))

/-- `MAX_RESPONSE_CHUNK_LENGTH` (src/websocket_app.py:76). -/
def MAX_RESPONSE_CHUNK_LENGTH : Nat := 10

/-- An event emitted for one provider task over the delivery channel
(src/websocket_app.py).  `response_chunk` carries the party id, the running
chunk index, the chunk content and the `is_end` marker. -/
inductive EmitEvent where
  | sources_ready (party_id : String)
  | response_chunk (party_id : String) (chunk_index : Nat)
      (chunk_content : List Char) (is_end : Bool)
  | response_complete (party_id : String) (success : Bool)
  deriving DecidableEq, Repr

/-- The pieces produced by `for i in range(0, len(content), MAX_RESPONSE_CHUNK_LENGTH):
chunk = content[i : i + MAX_RESPONSE_CHUNK_LENGTH]`. -/
def chunkPieces : List Char → List (List Char)
  | [] => []
  | c :: rest =>
    ((c :: rest).take MAX_RESPONSE_CHUNK_LENGTH)
      :: chunkPieces ((c :: rest).drop MAX_RESPONSE_CHUNK_LENGTH)
  termination_by l => l.length
  decreasing_by
    simp only [MAX_RESPONSE_CHUNK_LENGTH, List.length_drop, List.length_cons]
    omega

/-- Emitting a list of content pieces as `is_end := false` chunks with a
running chunk index; returns the events and the final counter value. -/
def emitChunkEvents (party_id : String) : Nat → List (List Char) → List EmitEvent × Nat
  | idx, [] => ([], idx)
  | idx, piece :: rest =>
    let next := emitChunkEvents party_id (idx + 1) rest
    (.response_chunk party_id idx piece false :: next.1, next.2)

/-- The nested chunk-emission loop of the live path
(src/websocket_app.py:525-547): for each chunk of the model stream, split its
content into pieces of at most `MAX_RESPONSE_CHUNK_LENGTH` characters and emit
them with one running `chunk_index` across the whole stream. -/
def emitStreamEvents (party_id : String) : Nat → List (List Char) → List EmitEvent × Nat
  | idx, [] => ([], idx)
  | idx, message_chunk :: rest =>
    let this := emitChunkEvents party_id idx (chunkPieces message_chunk)
    let next := emitStreamEvents party_id this.2 rest
    (this.1 ++ next.1, next.2)

/-- `emit_cached_party_response` (src/websocket_app.py:270-336): emit
`sources_ready`, then the cached content artificially chunked as
`is_end := false` chunks, then `party_response_complete`.  The finalizing
`is_end := true` chunk DTO is constructed at src/websocket_app.py:304-310 but
never passed to an emit call, so it does not appear in the event trace. -/
def emit_cached_party_response (party_id : String) (content : List Char) :
    List EmitEvent :=
  let chunks := emitChunkEvents party_id 0 (chunkPieces content)
  [.sources_ready party_id] ++ chunks.1 ++ [.response_complete party_id true]

/-- The event trace of the freshly generated (non-cached) success path of
`fetch_and_emit_party_response` (src/websocket_app.py:434-599): `sources_ready`
first, then the streamed chunks, then the finalizing `is_end := true` chunk at
the next index with empty content, then `party_response_complete`.  `stream` is
the list of content strings of the model's stream chunks. -/
def fetch_live_party_response_events (party_id : String) (stream : List (List Char)) :
    List EmitEvent :=
  let chunks := emitStreamEvents party_id 0 stream
  [.sources_ready party_id] ++ chunks.1 ++
    [.response_chunk party_id chunks.2 [] true, .response_complete party_id true]

/-- A cached answer (`CachedResponse`, src/models/chat.py); only the `content`
field is relevant to the claims. -/
structure CachedResponse where
  content : List Char
  deriving DecidableEq, Repr

/-- What one execution of `fetch_and_emit_party_response` does: the events it
emits and how often `awrite_cached_answer_for_party` (the cache store) is
called. -/
structure PartyResponseRun where
  events : List EmitEvent
  store_calls : Nat
  deriving DecidableEq, Repr

/-- The cache decision and emission flow of `fetch_and_emit_party_response`
(src/websocket_app.py:370-413 and 604-623), success path.  When the request is
cacheable (`is_proposed_question or is_cacheable_chat`), a cache key exists and
the candidate list is the existing cached answers plus `None` if fewer than
`cached_answer_limit` (which is `1 if is_proposed_question else 1`) exist;
`random.choice` (modelled by `rand` mod the list length) picks one.  Picking a
cached answer replays it and never stores; picking `None` generates freshly and
stores exactly once afterwards.  Without a cache key the fresh path runs and
nothing is stored. -/
def fetch_and_emit_party_response (party_id : String)
    (is_proposed_question is_cacheable_chat : Bool)
    (existing_cached_answers : List CachedResponse) (rand : Nat)
    (stream : List (List Char)) : PartyResponseRun :=
  if is_proposed_question || is_cacheable_chat then
    let cached_answer_limit : Nat := if is_proposed_question then 1 else 1
    let possible_answers : List (Option CachedResponse) :=
      if existing_cached_answers.length < cached_answer_limit then
        existing_cached_answers.map some ++ [none]
      else
        existing_cached_answers.map some
    match possible_answers.getD (rand % possible_answers.length) none with
    | some cached_answer_to_emit =>
      ⟨emit_cached_party_response party_id cached_answer_to_emit.content, 0⟩
    | none => ⟨fetch_live_party_response_events party_id stream, 1⟩
  else
    ⟨fetch_live_party_response_events party_id stream, 0⟩

/-- The cacheability updates performed by one `chat_answer_request` turn
(src/websocket_app.py:736-745, 880-899): set the flag to `false` when the user
message is off-script (not the beginning of the chat and not among the last
quick replies), per responding party when the first message is not a proposed
question, and unconditionally in the comparison branch.  No statement in the
handler ever assigns `true`. -/
def chat_answer_request_is_cacheable (is_cacheable : Bool)
    (is_beginning_of_chat : Bool) (user_message_in_last_quick_replies : Bool)
    (single_or_not_comparing : Bool) (is_proposed_question_per_party : List Bool) :
    Bool :=
  let c :=
    if !is_beginning_of_chat && !user_message_in_last_quick_replies then false
    else is_cacheable
  if single_or_not_comparing then
    is_proposed_question_per_party.foldl
      (fun acc is_proposed =>
        if is_beginning_of_chat && !is_proposed then false else acc) c
  else
    false

/-- A session-level event of one `chat_answer_request` turn. -/
inductive TurnEvent where
  | provider_event (e : EmitEvent)
  | chat_error (msg : String)
  | quick_replies_and_title_ready
  | chat_response_complete_success
  deriving DecidableEq, Repr

/-- The tail of `chat_answer_request` after the provider fan-out
(src/websocket_app.py:959-1040): the provider events already streamed stay as
they are; if the aggregate 40-second `asyncio.wait_for` times out, a
`chat_response_complete` event with an error status is emitted and the handler
returns; otherwise the title/quick-replies step runs, emitting
`quick_replies_and_title_ready` and a success completion, or an error
completion if it raises. -/
def chat_answer_request_after_fanout (streamed_events : List EmitEvent)
    (fanout_timed_out : Bool) (title_generation_ok : Bool) : List TurnEvent :=
  streamed_events.map TurnEvent.provider_event ++
    (if fanout_timed_out then
      [TurnEvent.chat_error "Timeout while fetching party responses"]
    else if title_generation_ok then
      [TurnEvent.quick_replies_and_title_ready,
       TurnEvent.chat_response_complete_success]
    else
      [TurnEvent.chat_error "Error generating chat title and quick replies"])

/-- Python list indexing `xs[i]`, including negative indices; `none` models a
raised `IndexError`. -/
def pyGet (xs : List α) (i : Int) : Option α :=
  if 0 ≤ i then xs.get? i.toNat
  else if 0 ≤ (xs.length : Int) + i then xs.get? ((xs.length : Int) + i).toNat
  else none

/-- The list comprehension `[relevant_docs[i] for i in relevant_indices]`:
`none` models a raised `IndexError` (the partial result is discarded). -/
def pyGetAll (xs : List α) : List Int → Option (List α)
  | [] => some []
  | i :: rest =>
    match pyGet xs i, pyGetAll xs rest with
    | some d, some ds => some (d :: ds)
    | _, _ => none

/-- `rerank_documents` (src/chatbot_async.py:102-138) over the outcome of the
structured-output call: if `get_structured_output_from_llms` raises, the
exception propagates (`.error`); otherwise the first 5 returned indices select
documents, and only an `IndexError` inside the `try` block is swallowed,
falling back to the top 5 of the original order. -/
def rerank_documents (relevant_docs : List α)
    (reranker_response : Except String (List Int)) : Except String (List α) :=
  match reranker_response with
  | .error e => .error e
  | .ok reranked_doc_indices =>
    let relevant_indices := reranked_doc_indices.take 5
    match pyGetAll relevant_docs relevant_indices with
    | some reranked_relevant_docs => .ok reranked_relevant_docs
    | none => .ok (relevant_docs.take 5)

/-- `identify_relevant_docs_with_llm_based_reranking`
(src/vector_store_helper.py:152-181): re-rank only when at least 5 similarity
results exist, otherwise return them as they are. -/
def identify_relevant_docs_with_llm_based_reranking (relevant_docs : List α)
    (reranker_response : Except String (List Int)) : Except String (List α) :=
  if 5 ≤ relevant_docs.length then rerank_documents relevant_docs reranker_response
  else .ok relevant_docs

/-- Is an event a response chunk? -/
def isChunkEvent : EmitEvent → Bool
  | .response_chunk _ _ _ _ => true
  | _ => false

/-- Is an event a `sources_ready` event? -/
def isSourcesEvent : EmitEvent → Bool
  | .sources_ready _ => true
  | _ => false

/-- The `(chunk_index, is_end)` projection of the chunk events of a trace. -/
def chunkRecords (events : List EmitEvent) : List (Nat × Bool) :=
  events.filterMap fun e =>
    match e with
    | .response_chunk _ i _ is_end => some (i, is_end)
    | _ => none

/-- The chunk-payload invariant of claim C10: a non-final chunk carries at most
`MAX_RESPONSE_CHUNK_LENGTH` characters, a final chunk carries empty content. -/
def chunkContentOk : EmitEvent → Bool
  | .response_chunk _ _ content is_end =>
    if is_end then content.isEmpty
    else decide (content.length ≤ MAX_RESPONSE_CHUNK_LENGTH)
  | _ => true

/-- Does a `sources_ready` event occur before the first chunk event? -/
def sourcesBeforeFirstChunk (events : List EmitEvent) : Bool :=
  (events.takeWhile (fun e => !isChunkEvent e)).any isSourcesEvent

/-- Total number of content pieces of a stream after splitting. -/
def numPieces (stream : List (List Char)) : Nat :=
  (stream.map fun message_chunk => (chunkPieces message_chunk).length).sum

instance : IsTotal LLM (fun a b => b.priority ≤ a.priority) :=
  ⟨fun a b => le_total b.priority a.priority⟩

instance : IsTrans LLM (fun a b => b.priority ≤ a.priority) :=
  ⟨fun _ _ _ hab hbc => le_trans hbc hab⟩

theorem sortByPriorityDesc_pairwise (llms : List LLM) :
    (sortByPriorityDesc llms).Pairwise (fun a b => b.priority ≤ a.priority) :=
  List.sorted_insertionSort (fun a b : LLM => b.priority ≤ a.priority) llms

theorem mem_sortByPriorityDesc {x : LLM} {l : List LLM} :
    x ∈ sortByPriorityDesc l ↔ x ∈ l :=
  (List.perm_insertionSort (fun a b => b.priority ≤ a.priority) l).mem_iff

theorem try_llms_in_order_all_fail (inv : LLM → Option α) (l : List LLM)
    (h : ∀ x ∈ l, inv x = none) :
    try_llms_in_order inv l = (l.map (fun x => (x.name, true)), none) := by
  induction l with
  | nil => rfl
  | cons x xs ih =>
    have hx : inv x = none := h x (by simp)
    simp [try_llms_in_order, hx, ih (fun y hy => h y (by simp [hy]))]

theorem try_llms_in_order_first_success (inv : LLM → Option α) (l₁ : List LLM)
    (x : LLM) (l₂ : List LLM) (r : α) (h₁ : ∀ y ∈ l₁, inv y = none)
    (h₂ : inv x = some r) :
    try_llms_in_order inv (l₁ ++ x :: l₂) =
      (l₁.map (fun y => (y.name, true)) ++ [(x.name, false)], some (x.name, r)) := by
  induction l₁ with
  | nil => simp [try_llms_in_order, h₂]
  | cons y ys ih =>
    have hy : inv y = none := h₁ y (by simp)
    simp [try_llms_in_order, hy, ih (fun z hz => h₁ z (by simp [hz]))]

/-- C1: For every non-empty pool of backends, the single-shot invocation
(`get_answer_from_llms` / `get_structured_output_from_llms`) tries the
non-backup candidates in descending priority order; on the first successful
invocation it sets that candidate's `is_at_rate_limit` flag to `False` and
returns its result, trying no further candidates; on each failed invocation it
sets that candidate's flag to `True` and continues; only after every primary
candidate has failed does it fire the process-wide rate-limit signal, exactly
once per exhausted batch, and then it tries the backup-only candidates in the
same way; if all primary and backup candidates fail it raises the exhaustion
error. -/
theorem c1_single_shot_failover_contract (α : Type) (inv : LLM → Option α)
    (llms : List LLM) (hne : llms ≠ []) :
    get_structured_output_from_llms inv llms = get_answer_from_llms inv llms ∧
    (single_shot_candidate_tiers llms).1.Pairwise (fun a b => b.priority ≤ a.priority) ∧
    (single_shot_candidate_tiers llms).2.Pairwise (fun a b => b.priority ≤ a.priority) ∧
    (∀ (l₁ : List LLM) (x : LLM) (l₂ : List LLM) (r : α),
      (single_shot_candidate_tiers llms).1 = l₁ ++ x :: l₂ →
      (∀ y ∈ l₁, inv y = none) → inv x = some r →
      get_answer_from_llms inv llms =
        ⟨l₁.map (fun y => (y.name, true)) ++ [(x.name, false)], 0,
         RouterOutcome.success x.name r⟩) ∧
    ((∀ y ∈ (single_shot_candidate_tiers llms).1, inv y = none) →
      (get_answer_from_llms inv llms).signals = 1 ∧
      (∀ (l₁ : List LLM) (x : LLM) (l₂ : List LLM) (r : α),
        (single_shot_candidate_tiers llms).2 = l₁ ++ x :: l₂ →
        (∀ y ∈ l₁, inv y = none) → inv x = some r →
        get_answer_from_llms inv llms =
          ⟨(single_shot_candidate_tiers llms).1.map (fun y => (y.name, true)) ++
             (l₁.map (fun y => (y.name, true)) ++ [(x.name, false)]), 1,
           RouterOutcome.success x.name r⟩) ∧
      ((∀ y ∈ (single_shot_candidate_tiers llms).2, inv y = none) →
        get_answer_from_llms inv llms =
          ⟨(single_shot_candidate_tiers llms).1.map (fun y => (y.name, true)) ++
             (single_shot_candidate_tiers llms).2.map (fun y => (y.name, true)), 1,
           RouterOutcome.raised "All LLMs are at rate limit."⟩)) := by
  refine ⟨rfl, ?_, ?_, ?_, ?_⟩
  · exact (sortByPriorityDesc_pairwise llms).filter _
  · exact (sortByPriorityDesc_pairwise llms).filter _
  · intro l₁ x l₂ r hdec hfail hsucc
    simp [get_answer_from_llms, hdec,
      try_llms_in_order_first_success inv l₁ x l₂ r hfail hsucc]
  · intro hfailP
    have hP := try_llms_in_order_all_fail inv _ hfailP
    refine ⟨?_, ?_, ?_⟩
    · rcases hb : try_llms_in_order inv (single_shot_candidate_tiers llms).2 with
        ⟨fw₂, res⟩
      rcases res with _ | ⟨n, r⟩ <;> simp [get_answer_from_llms, hP, hb]
    · intro l₁ x l₂ r hdec hfail hsucc
      simp [get_answer_from_llms, hP, hdec,
        try_llms_in_order_first_success inv l₁ x l₂ r hfail hsucc]
    · intro hfailB
      simp [get_answer_from_llms, hP, try_llms_in_order_all_fail inv _ hfailB]

/-- Witness for C1 at a concrete one-element pool whose only (primary)
candidate succeeds. -/
theorem c1_witness :
    get_answer_from_llms (fun _ => some 0)
        [⟨"a", [.large], 1, 1, false, false, false⟩] =
      ⟨[("a", false)], 0, RouterOutcome.success "a" 0⟩ := by
  have h := c1_single_shot_failover_contract Nat (fun _ => some 0)
    [⟨"a", [.large], 1, 1, false, false, false⟩] (by decide)
  exact h.2.2.2.1 [] ⟨"a", [.large], 1, 1, false, false, false⟩ [] 0
    (by decide) (by simp) rfl

/-- Counterexample to C4: with a pool whose only candidate fails, the streaming
router fires the rate-limit signal and ends with `returnedNone` — the Python
function returns `None` to the caller instead of raising an exhaustion
error. -/
theorem c4_counterexample :
    stream_answer_from_llms (fun _ => (none : Option Unit))
        [⟨"google-gemini-2.0-flash", [.small, .large], 100, 108, false, false, false⟩]
        .large false =
      ⟨[("google-gemini-2.0-flash", true)], 1, RouterOutcome.returnedNone⟩ := by
  decide

/-- C4 (amended): for the streaming invocation mode, if every candidate in the
filtered, ordered list fails (in particular if the list is empty), the
function flags each tried candidate, fires the process-wide rate-limit signal
once, and returns `None` to the caller — it raises no exhaustion error and
consults no backup tier. -/
theorem c4_stream_exhaustion_returns_none (α : Type) (inv : LLM → Option α)
    (llms : List LLM) (preferred : LLMSize) (use_premium : Bool)
    (h : ∀ x ∈ stream_candidate_order llms preferred use_premium, inv x = none) :
    stream_answer_from_llms inv llms preferred use_premium =
      ⟨(stream_candidate_order llms preferred use_premium).map
          (fun x => (x.name, true)), 1, RouterOutcome.returnedNone⟩ := by
  simp [stream_answer_from_llms, try_llms_in_order_all_fail inv _ h]

/-- Witness for the amended C4 at the empty pool. -/
theorem c4_witness :
    stream_answer_from_llms (fun _ => (none : Option Unit)) [] .large false =
      ⟨[], 1, RouterOutcome.returnedNone⟩ := by
  exact c4_stream_exhaustion_returns_none Unit (fun _ => none) [] .large false
    (by simp)

/-- Counterexample to C5: the two invocation modes do not share the spec's
selection algorithm.  The single-shot tiers keep a `premium_only` backend for
a non-premium caller (no premium exclusion), and the streaming order keeps a
`back_up_only` backend in its only tier (no backup deferral), both deviating
from the spec's `select`. -/
theorem c5_counterexample :
    (single_shot_candidate_tiers
        [⟨"azure-gpt-4o", [.large], 90, 112, false, true, false⟩]).1 ≠
      (select_spec [⟨"azure-gpt-4o", [.large], 90, 112, false, true, false⟩]
        .large false).1 ∧
    stream_candidate_order
        [⟨"backup-llm", [.large], 10, 100, false, false, true⟩] .large false ≠
      (select_spec [⟨"backup-llm", [.large], 10, 100, false, false, true⟩]
        .large false).1 := by
  decide

/-- C5 (amended): both modes try candidates in descending priority order, but
they do not share the full selection algorithm — single-shot defers
`back_up_only` backends to a second tier yet performs no size partitioning and
no premium exclusion, while streaming partitions by preferred size and excludes
`premium_only` backends yet has no backup tier.  On pools where no backend is
premium-only or backup-only and every backend offers the preferred size, the
two modes produce the identical candidate list, which also agrees with the
spec's selection algorithm. -/
theorem c5_selection_agreement (llms : List LLM) (preferred : LLMSize)
    (hprem : ∀ x ∈ llms, x.premium_only = false)
    (hbu : ∀ x ∈ llms, x.back_up_only = false)
    (hsize : ∀ x ∈ llms, x.sizes.contains preferred = true) :
    stream_candidate_order llms preferred false =
      (single_shot_candidate_tiers llms).1 ∧
    (single_shot_candidate_tiers llms).2 = [] ∧
    stream_candidate_order llms preferred false = (select_spec llms preferred false).1 ∧
    (select_spec llms preferred false).2 = [] := by
  have hfilter_prem : llms.filter (fun llm => !llm.premium_only) = llms :=
    List.filter_eq_self.mpr (fun x hx => by simp [hprem x hx])
  have hprimary : (sortByPriorityDesc llms).filter (fun llm => !llm.back_up_only) =
      sortByPriorityDesc llms :=
    List.filter_eq_self.mpr
      (fun x hx => by simp [hbu x (mem_sortByPriorityDesc.mp hx)])
  have hsecondary : (sortByPriorityDesc llms).filter (fun llm => llm.back_up_only) = [] :=
    List.filter_eq_nil_iff.mpr
      (fun x hx => by simp [hbu x (mem_sortByPriorityDesc.mp hx)])
  have hstream : stream_candidate_order llms preferred false = sortByPriorityDesc llms := by
    cases preferred with
    | large =>
      have h₁ : llms.filter (fun llm => decide (LLMSize.large ∈ llm.sizes)) = llms :=
        List.filter_eq_self.mpr (fun x hx => by simpa using hsize x hx)
      have h₂ : llms.filter
          (fun llm => decide (LLMSize.small ∈ llm.sizes) &&
            !decide (LLMSize.large ∈ llm.sizes)) = [] :=
        List.filter_eq_nil_iff.mpr
          (fun x hx => by have h := hsize x hx; simp at h; simp [h])
      simp [stream_candidate_order, hfilter_prem, h₁, h₂, sortByPriorityDesc]
    | small =>
      have h₁ : llms.filter (fun llm => decide (LLMSize.small ∈ llm.sizes)) = llms :=
        List.filter_eq_self.mpr (fun x hx => by simpa using hsize x hx)
      have h₂ : llms.filter
          (fun llm => decide (LLMSize.large ∈ llm.sizes) &&
            !decide (LLMSize.small ∈ llm.sizes)) = [] :=
        List.filter_eq_nil_iff.mpr
          (fun x hx => by have h := hsize x hx; simp at h; simp [h])
      simp [stream_candidate_order, hfilter_prem, h₁, h₂, sortByPriorityDesc]
  have hmatch : llms.filter (fun llm => decide (preferred ∈ llm.sizes)) = llms :=
    List.filter_eq_self.mpr (fun x hx => by simpa using hsize x hx)
  have hspill : llms.filter (fun llm => !decide (preferred ∈ llm.sizes)) = [] :=
    List.filter_eq_nil_iff.mpr
      (fun x hx => by have h := hsize x hx; simp at h; simp [h])
  have hnil : sortByPriorityDesc [] = [] := rfl
  refine ⟨?_, ?_, ?_, ?_⟩
  · simp [hstream, single_shot_candidate_tiers, hprimary]
  · simp [single_shot_candidate_tiers, hsecondary]
  · simp [hstream, select_spec, hfilter_prem, hmatch, hspill, hnil, hprimary]
  · simp [select_spec, hfilter_prem, hmatch, hspill, hnil, hsecondary]

/-- Witness for the amended C5 at a concrete two-element pool with no
premium-only, no backup-only, and only preferred-size members. -/
theorem c5_witness :
    stream_candidate_order
        [⟨"google-gemini-2.0-flash", [.small, .large], 100, 108, false, false, false⟩,
         ⟨"openai-gpt-4o", [.large], 98, 3759, false, false, false⟩] .large false =
      (single_shot_candidate_tiers
        [⟨"google-gemini-2.0-flash", [.small, .large], 100, 108, false, false, false⟩,
         ⟨"openai-gpt-4o", [.large], 98, 3759, false, false, false⟩]).1 ∧
    (single_shot_candidate_tiers
        [⟨"google-gemini-2.0-flash", [.small, .large], 100, 108, false, false, false⟩,
         ⟨"openai-gpt-4o", [.large], 98, 3759, false, false, false⟩]).2 = [] ∧
    stream_candidate_order
        [⟨"google-gemini-2.0-flash", [.small, .large], 100, 108, false, false, false⟩,
         ⟨"openai-gpt-4o", [.large], 98, 3759, false, false, false⟩] .large false =
      (select_spec
        [⟨"google-gemini-2.0-flash", [.small, .large], 100, 108, false, false, false⟩,
         ⟨"openai-gpt-4o", [.large], 98, 3759, false, false, false⟩] .large false).1 ∧
    (select_spec
        [⟨"google-gemini-2.0-flash", [.small, .large], 100, 108, false, false, false⟩,
         ⟨"openai-gpt-4o", [.large], 98, 3759, false, false, false⟩] .large false).2 = [] := by
  exact c5_selection_agreement _ .large (by decide) (by decide) (by decide)

theorem chunkRecords_append (l l' : List EmitEvent) :
    chunkRecords (l ++ l') = chunkRecords l ++ chunkRecords l' :=
  List.filterMap_append l l' _

theorem chunkRecords_cons_chunk (party_id : String) (i : Nat) (c : List Char)
    (b : Bool) (l : List EmitEvent) :
    chunkRecords (.response_chunk party_id i c b :: l) = (i, b) :: chunkRecords l :=
  rfl

theorem chunkRecords_emitChunkEvents (party_id : String) (idx : Nat)
    (pieces : List (List Char)) :
    chunkRecords (emitChunkEvents party_id idx pieces).1 =
      (List.range' idx pieces.length).map (fun i => (i, false)) ∧
    (emitChunkEvents party_id idx pieces).2 = idx + pieces.length := by
  induction pieces generalizing idx with
  | nil => simp [emitChunkEvents, chunkRecords]
  | cons piece rest ih =>
    have h := ih (idx + 1)
    refine ⟨?_, ?_⟩
    · simp only [emitChunkEvents, List.length_cons, List.range'_succ, List.map_cons]
      rw [chunkRecords_cons_chunk, h.1]
    · simp only [emitChunkEvents, h.2, List.length_cons]
      omega

theorem chunkRecords_emitStreamEvents (party_id : String) (idx : Nat)
    (stream : List (List Char)) :
    chunkRecords (emitStreamEvents party_id idx stream).1 =
      (List.range' idx (numPieces stream)).map (fun i => (i, false)) ∧
    (emitStreamEvents party_id idx stream).2 = idx + numPieces stream := by
  induction stream generalizing idx with
  | nil => simp [emitStreamEvents, chunkRecords, numPieces]
  | cons mc rest ih =>
    have hc := chunkRecords_emitChunkEvents party_id idx (chunkPieces mc)
    have hr := ih (emitChunkEvents party_id idx (chunkPieces mc)).2
    have hnum : numPieces (mc :: rest) = (chunkPieces mc).length + numPieces rest := by
      simp [numPieces]
    have happ := List.range'_append idx ((chunkPieces mc).length) (numPieces rest) 1
    simp only [one_mul] at happ
    refine ⟨?_, ?_⟩
    · simp only [emitStreamEvents]
      rw [chunkRecords_append, hc.1, hr.1, hc.2, ← List.map_append, happ, hnum,
        Nat.add_comm ((chunkPieces mc).length) (numPieces rest)]
    · simp only [emitStreamEvents]
      rw [hr.2, hc.2, hnum]
      omega

/-- C2: within one provider turn, the freshly generated path emits chunks with
indices `0,1,...,k` in order, exactly one of them (`k`, the last) marked
`is_end`; the cached-replay path, however, emits only the `is_end = false`
chunks `0,...,k-1` and never emits the finalizing `is_end = true` chunk: the
DTO built under the `# Emit a finalizing chunk` comment
(src/websocket_app.py:303-310) is never passed to `sio.emit`. -/
theorem c2_chunk_index_sequences :
    ∀ (party_id : String) (stream : List (List Char)) (content : List Char),
    chunkRecords (fetch_live_party_response_events party_id stream) =
      (List.range (numPieces stream)).map (fun i => (i, false)) ++
        [(numPieces stream, true)] ∧
    chunkRecords (emit_cached_party_response party_id content) =
      (List.range (chunkPieces content).length).map (fun i => (i, false)) := by
  intro party_id stream content
  have h := chunkRecords_emitStreamEvents party_id 0 stream
  have hc := chunkRecords_emitChunkEvents party_id 0 (chunkPieces content)
  constructor
  · simp only [fetch_live_party_response_events]
    rw [chunkRecords_append, chunkRecords_append, h.1, h.2]
    simp [chunkRecords, List.range_eq_range']
  · simp only [emit_cached_party_response]
    rw [chunkRecords_append, chunkRecords_append, hc.1]
    simp [chunkRecords, List.range_eq_range']

/-- C3: with the cached-answer limit 1, a cacheable request with no existing
cached answer always generates freshly and stores exactly one new entry
afterwards; a cacheable request with at least one existing cached answer always
replays one of the existing answers (the one `random.choice` picks) and never
calls the store. -/
theorem c3_cached_answer_reuse (party_id : String)
    (is_proposed_question is_cacheable_chat : Bool)
    (existing : List CachedResponse) (rand : Nat) (stream : List (List Char))
    (hkey : (is_proposed_question || is_cacheable_chat) = true) :
    (existing = [] →
      fetch_and_emit_party_response party_id is_proposed_question is_cacheable_chat
          existing rand stream =
        ⟨fetch_live_party_response_events party_id stream, 1⟩) ∧
    (existing ≠ [] →
      fetch_and_emit_party_response party_id is_proposed_question is_cacheable_chat
          existing rand stream =
        ⟨emit_cached_party_response party_id
            (existing.getD (rand % existing.length) ⟨[]⟩).content, 0⟩ ∧
      existing.getD (rand % existing.length) ⟨[]⟩ ∈ existing) := by
  constructor
  · rintro rfl
    simp [fetch_and_emit_party_response, hkey]
  · intro hne
    have hlen : 0 < existing.length := List.length_pos.mpr hne
    have hnotlt : ¬ existing.length < 1 := by omega
    have hi : rand % existing.length < existing.length := Nat.mod_lt _ hlen
    refine ⟨?_, ?_⟩
    · simp [fetch_and_emit_party_response, hkey, hnotlt, List.getElem?_eq_getElem hi]
    · exact (List.getD_eq_getElem _ _ hi) ▸ List.getElem_mem hi

/-- Witness for C3 at a concrete cacheable request with an empty cache. -/
theorem c3_witness :
    fetch_and_emit_party_response "spd" true false [] 0 [['a']] =
      ⟨fetch_live_party_response_events "spd" [['a']], 1⟩ := by
  exact (c3_cached_answer_reuse "spd" true false [] 0 [['a']] (by decide)).1 rfl

theorem cacheable_foldl_false (b : Bool) (flags : List Bool) :
    flags.foldl
      (fun acc is_proposed => if b && !is_proposed then false else acc) false = false := by
  induction flags with
  | nil => rfl
  | cons p ps ih => simpa [List.foldl_cons, ite_self] using ih

/-- C6: the cacheability flag is monotonic-downward across a
`chat_answer_request` turn: if a session enters the handler with
`is_cacheable = false`, it leaves it with `is_cacheable = false`, whatever the
message, the responding parties and the branch taken — no statement of the
session orchestrator ever assigns `true` to the flag. -/
theorem c6_cacheability_monotonic :
    ∀ (is_beginning_of_chat user_message_in_last_quick_replies
        single_or_not_comparing : Bool) (is_proposed_question_per_party : List Bool),
    chat_answer_request_is_cacheable false is_beginning_of_chat
      user_message_in_last_quick_replies single_or_not_comparing
      is_proposed_question_per_party = false := by
  intro b q s flags
  simp only [chat_answer_request_is_cacheable, ite_self]
  cases s with
  | false => simp
  | true => simpa using cacheable_foldl_false b flags

/-- C7: if the aggregate provider fan-out of a turn times out, the handler
emits exactly one turn-level timeout error event after the provider events
already streamed — retracting none of them — and neither the
quick-replies-and-title event nor the success completion is emitted for that
turn. -/
theorem c7_turn_timeout_behaviour :
    ∀ (streamed_events : List EmitEvent) (title_generation_ok : Bool),
    chat_answer_request_after_fanout streamed_events true title_generation_ok =
      streamed_events.map TurnEvent.provider_event ++
        [TurnEvent.chat_error "Timeout while fetching party responses"] ∧
    TurnEvent.quick_replies_and_title_ready ∉
      chat_answer_request_after_fanout streamed_events true title_generation_ok ∧
    TurnEvent.chat_response_complete_success ∉
      chat_answer_request_after_fanout streamed_events true title_generation_ok ∧
    TurnEvent.chat_error "Timeout while fetching party responses" ∈
      chat_answer_request_after_fanout streamed_events true title_generation_ok := by
  intro streamed_events title_generation_ok
  refine ⟨?_, ?_, ?_, ?_⟩ <;> simp [chat_answer_request_after_fanout]

/-- C9: in both the freshly generated path and the cached-replay path, the
`sources_ready` event for a provider is emitted before that provider's first
response content chunk. -/
theorem c9_sources_precede_chunks :
    ∀ (party_id : String) (stream : List (List Char)) (content : List Char),
    sourcesBeforeFirstChunk (fetch_live_party_response_events party_id stream) = true ∧
    sourcesBeforeFirstChunk (emit_cached_party_response party_id content) = true := by
  intro party_id stream content
  constructor <;>
    simp [sourcesBeforeFirstChunk, fetch_live_party_response_events,
      emit_cached_party_response, isChunkEvent, isSourcesEvent, List.takeWhile_cons]

theorem chunkPieces_length_le (content : List Char) :
    ∀ piece ∈ chunkPieces content, piece.length ≤ MAX_RESPONSE_CHUNK_LENGTH := by
  match content with
  | [] => simp [chunkPieces]
  | c :: rest =>
    intro piece hp
    rw [chunkPieces] at hp
    rcases List.mem_cons.mp hp with h | h
    · subst h
      simp [List.length_take]
    · exact chunkPieces_length_le ((c :: rest).drop MAX_RESPONSE_CHUNK_LENGTH) piece h
termination_by content.length
decreasing_by
  simp only [MAX_RESPONSE_CHUNK_LENGTH, List.length_drop, List.length_cons]
  omega

theorem emitChunkEvents_all_ok (party_id : String) (idx : Nat)
    (pieces : List (List Char))
    (h : ∀ piece ∈ pieces, piece.length ≤ MAX_RESPONSE_CHUNK_LENGTH) :
    (emitChunkEvents party_id idx pieces).1.all chunkContentOk = true := by
  induction pieces generalizing idx with
  | nil => rfl
  | cons piece rest ih =>
    simp only [emitChunkEvents, List.all_cons, Bool.and_eq_true]
    exact ⟨by simp [chunkContentOk, h piece (by simp)],
      ih (idx + 1) (fun p hp => h p (by simp [hp]))⟩

theorem emitStreamEvents_all_ok (party_id : String) (idx : Nat)
    (stream : List (List Char)) :
    (emitStreamEvents party_id idx stream).1.all chunkContentOk = true := by
  induction stream generalizing idx with
  | nil => rfl
  | cons mc rest ih =>
    simp only [emitStreamEvents, List.all_append, Bool.and_eq_true]
    exact ⟨emitChunkEvents_all_ok party_id idx (chunkPieces mc)
      (chunkPieces_length_le mc), ih _⟩

/-- C10: every emitted chunk event with `is_end = false` carries at most
`MAX_RESPONSE_CHUNK_LENGTH` (10) characters of content, and every chunk event
with `is_end = true` carries empty content, in both the cached-replay path and
the live-stream path. -/
theorem c10_chunk_payload_invariant :
    ∀ (party_id : String) (stream : List (List Char)) (content : List Char),
    (fetch_live_party_response_events party_id stream).all chunkContentOk = true ∧
    (emit_cached_party_response party_id content).all chunkContentOk = true := by
  intro party_id stream content
  constructor
  · simp [fetch_live_party_response_events, List.all_append, List.all_cons,
      chunkContentOk, emitStreamEvents_all_ok party_id 0 stream]
  · simp [emit_cached_party_response, List.all_append, List.all_cons, chunkContentOk,
      emitChunkEvents_all_ok party_id 0 (chunkPieces content)
        (chunkPieces_length_le content)]

theorem pyGet_mem (xs : List α) (i : Int) (x : α) (h : pyGet xs i = some x) :
    x ∈ xs := by
  unfold pyGet at h
  split at h
  · exact List.get?_mem h
  · split at h
    · exact List.get?_mem h
    · cases h

theorem pyGetAll_length_mem (xs : List α) :
    ∀ (idxs : List Int) (sel : List α), pyGetAll xs idxs = some sel →
      sel.length = idxs.length ∧ ∀ x ∈ sel, x ∈ xs := by
  intro idxs
  induction idxs with
  | nil =>
    intro sel h
    simp only [pyGetAll, Option.some.injEq] at h
    subst h
    simp
  | cons i rest ih =>
    intro sel h
    simp only [pyGetAll] at h
    split at h
    · rename_i d ds hd hds
      cases h
      obtain ⟨hlen, hmem⟩ := ih ds hds
      refine ⟨by simp [hlen], ?_⟩
      intro x hx
      rcases List.mem_cons.mp hx with rfl | hx
      · exact pyGet_mem xs i x hd
      · exact hmem x hx
    · cases h

/-- Counterexample to C8: with exactly 5 similarity results, a failing
re-ranking model call surfaces its error to the caller instead of falling back
(first conjunct), and a well-formed re-ranker output of fewer than 5 indices
yields fewer than 5 documents (second conjunct). -/
theorem c8_counterexample :
    identify_relevant_docs_with_llm_based_reranking ([0, 1, 2, 3, 4] : List Nat)
        (Except.error "rate limited") = Except.error "rate limited" ∧
    identify_relevant_docs_with_llm_based_reranking ([0, 1, 2, 3, 4] : List Nat)
        (Except.ok [2]) = Except.ok [2] :=
  ⟨rfl, rfl⟩

/-- C8 (amended): with at least 5 similarity results, the re-ranking pass keeps
the first 5 indices the model returns, yielding at most 5 (possibly fewer)
documents drawn from the similarity results in the model's order; an
out-of-range index is swallowed and falls back to the top 5 of the original
similarity order; but a failure of the re-ranking model call itself is not
swallowed — it propagates to the caller.  With fewer than 5 similarity results
no re-ranking happens and the original order is returned. -/
theorem c8_reranking_error_propagation (docs : List Nat)
    (resp : Except String (List Int)) :
    (docs.length < 5 →
      identify_relevant_docs_with_llm_based_reranking docs resp = .ok docs) ∧
    (5 ≤ docs.length →
      (∀ e, resp = .error e →
        identify_relevant_docs_with_llm_based_reranking docs resp = .error e) ∧
      (∀ idxs, resp = .ok idxs → pyGetAll docs (idxs.take 5) = none →
        identify_relevant_docs_with_llm_based_reranking docs resp =
          .ok (docs.take 5)) ∧
      (∀ idxs sel, resp = .ok idxs → pyGetAll docs (idxs.take 5) = some sel →
        identify_relevant_docs_with_llm_based_reranking docs resp = .ok sel ∧
        sel.length ≤ 5 ∧ ∀ x ∈ sel, x ∈ docs)) := by
  constructor
  · intro hlt
    have hnot : ¬ 5 ≤ docs.length := by omega
    simp [identify_relevant_docs_with_llm_based_reranking, hnot]
  · intro hge
    refine ⟨?_, ?_, ?_⟩
    · rintro e rfl
      simp [identify_relevant_docs_with_llm_based_reranking, hge, rerank_documents]
    · rintro idxs rfl hnone
      simp [identify_relevant_docs_with_llm_based_reranking, hge, rerank_documents,
        hnone]
    · rintro idxs sel rfl hsome
      obtain ⟨hlen, hmem⟩ := pyGetAll_length_mem docs (idxs.take 5) sel hsome
      refine ⟨?_, ?_, hmem⟩
      · simp [identify_relevant_docs_with_llm_based_reranking, hge, rerank_documents,
          hsome]
      · have ht : (idxs.take 5).length ≤ 5 := by simp [List.length_take]
        omega

/-- Witness for the amended C8: 5 documents, a valid 2-index re-ranker answer,
re-ranked result in model order. -/
theorem c8_witness :
    identify_relevant_docs_with_llm_based_reranking ([10, 11, 12, 13, 14] : List Nat)
        (Except.ok [4, 0]) = Except.ok [14, 10] := by
  exact (((c8_reranking_error_propagation [10, 11, 12, 13, 14]
    (Except.ok [4, 0])).2 (by decide)).2.2 [4, 0] [14, 10] rfl (by rfl)).1

end WahlChat
